import Mathlib

/-!
# Verification of the RADAE decoder signal pipeline

Shallow embedding of the `radae_decoder` sources:

* `AudioInput` (src/audio_input.h and its implementation file): ALSA capture
  lifecycle (`open`/`close`/`start`/`stop`), the capture worker loop and its
  error handling.  All lifecycle state declared in the class
  (`pcm_`, `channels_`, `running_`, `level_left_`, `level_right_`) is embedded
  as a Lean structure; ALSA call outcomes are environment parameters.
* `RadaeDecoder` (header only; the implementation of `processing_loop` is not
  part of the corpus): the declared state fields (Hilbert rings, FARGAN warmup
  buffer, resampler cursors, status atomics) are embedded from the header, and
  the per-sample/per-frame dynamics that the header only declares are modelled
  from the specification where noted.

Samples and level values are embedded as rationals (`ℚ`): the C++ code uses
`float`/`double`, and the properties verified here are exact structural /
timing properties (delays, gating, idempotence), not rounding properties.
-/

namespace AudioInput

/-- Lifecycle state of `AudioInput` (src/audio_input.h lines 41-46):
`pcm_` is embedded as the Boolean `pcm_open` (handle null or not);
`channels_`, `running_`, `level_left_`, `level_right_` map directly.
The `std::thread` handle itself carries no observable state beyond
`running_` and is not embedded. -/
structure State where
  pcm_open : Bool
  channels_ : Nat
  running_ : Bool
  level_left_ : ℚ
  level_right_ : ℚ
deriving DecidableEq, Repr

/-- The freshly constructed object: all members value-initialised
(`pcm_ = nullptr`, `channels_ = 0`, `running_ = false`, levels 0). -/
def initState : State :=
  { pcm_open := false, channels_ := 0, running_ := false
    level_left_ := 0, level_right_ := 0 }

/-- `AudioInput::is_running` (src/audio_input.h line 33): relaxed load of
`running_`. -/
def is_running (s : State) : Bool := s.running_

/-- `AudioInput::stop` (capture source lines 137-148): early-return when not
running; otherwise clear `running_`, drop/join (external effects), zero the
levels. -/
def stop (s : State) : State :=
  if !s.running_ then s
  else { s with running_ := false, level_left_ := 0, level_right_ := 0 }

/-- `AudioInput::close` (capture source lines 116-126): `stop()`, then close
and null the handle and zero `channels_` if a handle is open, then zero both
levels unconditionally. -/
def close (s : State) : State :=
  let s1 := stop s
  let s2 := if s1.pcm_open then { s1 with pcm_open := false, channels_ := 0 } else s1
  { s2 with level_left_ := 0, level_right_ := 0 }

/-- Outcomes of the ALSA calls made inside `AudioInput::open`, in source
order.  `maxCh` is the value reported by
`snd_pcm_hw_params_get_channels_max`.  The period/buffer-size calls have
their return values ignored by the source and so do not appear. -/
structure AlsaEnv where
  pcmOpenOk : Bool
  hwAnyOk : Bool
  accessOk : Bool
  formatOk : Bool
  maxCh : Nat
  chOk : Bool
  rateOk : Bool
  hwCommitOk : Bool
  prepOk : Bool
deriving DecidableEq, Repr

/-- The `fail:` label of `AudioInput::open` (capture source lines 109-113):
close the pcm handle, null it, zero `channels_`. -/
def openFailCleanup (s : State) : State :=
  { s with pcm_open := false, channels_ := 0 }

/-- `AudioInput::open` (capture source lines 65-114).  Mirrors the source
sequence: `close()` first; `snd_pcm_open` failure returns false with the
handle still null; each later negotiation failure jumps to the `fail:`
cleanup; on the channel step `channels_` is set to 2 or 1 from `maxCh`
before `snd_pcm_hw_params_set_channels` can fail.  Returns the new state and
the Boolean result. -/
def open' (s : State) (env : AlsaEnv) : State × Bool :=
  let s0 := close s
  if !env.pcmOpenOk then (s0, false)
  else
    let s1 := { s0 with pcm_open := true }
    if !env.hwAnyOk then (openFailCleanup s1, false)
    else if !env.accessOk then (openFailCleanup s1, false)
    else if !env.formatOk then (openFailCleanup s1, false)
    else
      let s2 := { s1 with channels_ := if 2 ≤ env.maxCh then 2 else 1 }
      if !env.chOk then (openFailCleanup s2, false)
      else if !env.rateOk then (openFailCleanup s2, false)
      else if !env.hwCommitOk then (openFailCleanup s2, false)
      else if !env.prepOk then (openFailCleanup s2, false)
      else (s2, true)

/-- `AudioInput::start` (capture source lines 130-135): a no-op unless a
device is open and the loop is not already running; otherwise sets
`running_` and spawns the capture thread.  The Boolean records whether a
thread was spawned. -/
def start (s : State) : State × Bool :=
  if !s.pcm_open || s.running_ then (s, false)
  else ({ s with running_ := true }, true)

/-- One `snd_pcm_readi` outcome as seen by `AudioInput::capture_loop`.
`ok l r` is a successful read of `n > 0` frames whose per-channel RMS
computation (source lines 172-191, a floating-point `sqrt` of the mean
square) yields levels `l` and `r`; the loop stores exactly those two values,
so the read outcome carries them.  `zero` is `n == 0`; `eintr` is
`n == -EINTR`; `errRecovered` / `errUnrec` are negative reads for which
`snd_pcm_recover` succeeds / fails. -/
inductive ReadOutcome where
  | ok (lvlL lvlR : ℚ)
  | zero
  | eintr
  | errRecovered
  | errUnrec
deriving DecidableEq, Repr

/-- How `capture_loop` left (or has not yet left) its while-loop. -/
inductive LoopOutcome where
  | stopped        -- while-condition saw `running_ = false`
  | shutdown       -- negative read with `running_` already cleared: `break`
  | unrecoverable  -- `snd_pcm_recover` failed: `break`
  | pending        -- outcome list exhausted with the loop still running
deriving DecidableEq, Repr

/-- `AudioInput::capture_loop` (capture source lines 152-193), driven by a
finite list of read outcomes.  Top of each iteration re-checks `running_`;
`-EINTR` retries; other negative reads `break` if `running_` was cleared,
else attempt recovery and `break` if it fails; `n == 0` retries; a
successful read stores the two computed levels.  Note that no branch of the
loop body writes `running_`. -/
def capture_loop : State → List ReadOutcome → State × LoopOutcome
  | s, [] => if !s.running_ then (s, .stopped) else (s, .pending)
  | s, o :: rest =>
    if !s.running_ then (s, .stopped)
    else
      match o with
      | .eintr => capture_loop s rest
      | .errRecovered => capture_loop s rest
      | .errUnrec => (s, .unrecoverable)
      | .zero => capture_loop s rest
      | .ok l r => capture_loop { s with level_left_ := l, level_right_ := r } rest

/-- States reachable from construction by any interleaving of the public
lifecycle calls and runs of the capture loop. -/
inductive Reachable : State → Prop
  | init : Reachable initState
  | opened (s : State) (env : AlsaEnv) : Reachable s → Reachable (open' s env).1
  | closed (s : State) : Reachable s → Reachable (close s)
  | started (s : State) : Reachable s → Reachable (start s).1
  | stopped (s : State) : Reachable s → Reachable (stop s)
  | looped (s : State) (outs : List ReadOutcome) : Reachable s →
      Reachable (capture_loop s outs).1

/-- The lifecycle invariant: with no device open, the channel count is zero,
the loop is not running and both levels are zero; and the loop only runs
while a device is open. -/
def Inv (s : State) : Prop :=
  (s.pcm_open = false →
    s.channels_ = 0 ∧ s.running_ = false ∧ s.level_left_ = 0 ∧ s.level_right_ = 0) ∧
  (s.running_ = true → s.pcm_open = true)

/-- An environment in which the very first ALSA call, `snd_pcm_open`,
fails. -/
def deviceMissingEnv : AlsaEnv :=
  { pcmOpenOk := false, hwAnyOk := true, accessOk := true, formatOk := true
    maxCh := 2, chOk := true, rateOk := true, hwCommitOk := true, prepOk := true }

/-- An environment in which every ALSA call succeeds, on a stereo card. -/
def stereoEnv : AlsaEnv :=
  { pcmOpenOk := true, hwAnyOk := true, accessOk := true, formatOk := true
    maxCh := 2, chOk := true, rateOk := true, hwCommitOk := true, prepOk := true }

/-- The state after a successful `open` followed by `start`: device open,
stereo, capture loop running. -/
def runningState : State := (start (open' initState stereoEnv).1).1

end AudioInput

namespace RadaeDecoder

/-! ### Status atomics (header lines 31-37 and 75-81) -/

/-- The status fields `RadaeDecoder` publishes through relaxed atomics
(header lines 77-81). -/
structure Status where
  running_ : Bool
  synced_ : Bool
  snr_dB_ : ℚ
  freq_offset_ : ℚ
  output_level_ : ℚ
deriving DecidableEq, Repr

/-- `RadaeDecoder::get_output_level_left` (header line 36): a relaxed load
of `output_level_`. -/
def get_output_level_left (s : Status) : ℚ := s.output_level_

/-- `RadaeDecoder::get_output_level_right` (header line 37): a relaxed load
of the *same* `output_level_` atomic — the decoded output is mono, so one
level is reported for both channels. -/
def get_output_level_right (s : Status) : ℚ := s.output_level_

/-! ### Hilbert transformer (header lines 54-59 and 71-73)

The header declares the 127-tap FIR state (`hilbert_coeffs_`,
`hilbert_hist_`, `hilbert_pos_`), `HILBERT_DELAY = (127-1)/2 = 63`, and the
separate real-part delay ring (`delay_buf_`, `delay_pos_`).  The per-sample
update lives in `processing_loop`, whose implementation file is not in the
corpus, so the update is modelled from the spec (§4.2). -/

/-- `RadaeDecoder::HILBERT_NTAPS` (header line 55). -/
def HILBERT_NTAPS : ℕ := 127

/-- `RadaeDecoder::HILBERT_DELAY` (header line 56): `(HILBERT_NTAPS-1)/2`,
i.e. 63. -/
def HILBERT_DELAY : ℕ := (HILBERT_NTAPS - 1) / 2

/-- The Hilbert-transformer state declared in the header: the FIR history
ring with its write cursor, and the real-part delay ring with its write
cursor.  The coefficient table `hilbert_coeffs_` is a run-time constant and
is passed as a parameter to the step function instead.  Samples are `ℚ`
(`float` in the source). -/
structure HilbertState where
  hilbert_hist_ : List ℚ
  hilbert_pos_ : ℕ
  delay_buf_ : List ℚ
  delay_pos_ : ℕ
deriving DecidableEq, Repr

/-- Both rings pre-zeroed (the header's `= {}` initialisers), cursors at
zero. -/
def initHilbert : HilbertState :=
  { hilbert_hist_ := List.replicate HILBERT_NTAPS 0, hilbert_pos_ := 0
    delay_buf_ := List.replicate HILBERT_NTAPS 0, delay_pos_ := 0 }

/-- Modelled from the spec: the per-sample Hilbert update performed by the
missing `processing_loop` (§4.2): "consumes one real sample at a time; for
every input sample, produces one delayed-real / Hilbert-filtered-imaginary
pair"; "the imaginary output is the FIR convolution of the last 127 real
samples" with the coefficient table; "the real output is the sample that
was current 63 samples ago (matching filter group delay), drawn from a
separate 127-long delay ring"; rings are maintained with a monotonically
advancing write cursor modulo 127.  The new sample is written at the
cursor, the imaginary output is `∑ₖ coeffs k · hist[(pos − k) mod 127]`,
the real output is read 63 slots behind the cursor, and both cursors
advance by one modulo 127. -/
def hilbert_step (coeffs : ℕ → ℚ) (s : HilbertState) (x : ℚ) :
    HilbertState × ℚ × ℚ :=
  let hist := s.hilbert_hist_.set s.hilbert_pos_ x
  let imag := ((List.range HILBERT_NTAPS).map
    (fun k => coeffs k *
      hist.getD ((s.hilbert_pos_ + HILBERT_NTAPS - k) % HILBERT_NTAPS) 0)).sum
  let dbuf := s.delay_buf_.set s.delay_pos_ x
  let re :=
    dbuf.getD ((s.delay_pos_ + HILBERT_NTAPS - HILBERT_DELAY) % HILBERT_NTAPS) 0
  ({ hilbert_hist_ := hist
     hilbert_pos_ := (s.hilbert_pos_ + 1) % HILBERT_NTAPS
     delay_buf_ := dbuf
     delay_pos_ := (s.delay_pos_ + 1) % HILBERT_NTAPS },
   re, imag)

/-- The Hilbert state after feeding samples `x 0, …, x (n-1)` from the
zeroed initial state. -/
def hilbertStateAfter (coeffs x : ℕ → ℚ) : ℕ → HilbertState
  | 0 => initHilbert
  | n + 1 => (hilbert_step coeffs (hilbertStateAfter coeffs x n) (x n)).1

/-- The delayed-real output produced while consuming sample `x n`. -/
def hilbertRealOut (coeffs x : ℕ → ℚ) (n : ℕ) : ℚ :=
  (hilbert_step coeffs (hilbertStateAfter coeffs x n) (x n)).2.1

/-- The FIR (imaginary) output produced while consuming sample `x n`. -/
def hilbertImagOut (coeffs x : ℕ → ℚ) (n : ℕ) : ℚ :=
  (hilbert_step coeffs (hilbertStateAfter coeffs x n) (x n)).2.2

/-- A unit impulse at sample index 0. -/
def impulse : ℕ → ℚ := fun k => if k = 0 then 1 else 0

/-- A 127-slot ring that started zeroed and has absorbed `x 0, …, x (n-1)`
at successive cursor positions `0, 1, … (mod 127)` — the common shape of
`hilbert_hist_` and `delay_buf_`. -/
def ringAfter (x : ℕ → ℚ) : ℕ → List ℚ
  | 0 => List.replicate HILBERT_NTAPS 0
  | n + 1 => (ringAfter x n).set (n % HILBERT_NTAPS) (x n)

/-! ### FARGAN warmup gate (header lines 61-65)

The header declares `NB_TOTAL_FEAT = 36`, `fargan_ready_`, `warmup_count_`
and the flat `warmup_buf_[5 * 36]`.  The gating logic runs in the missing
`processing_loop` and is modelled from the spec (§4.3). -/

/-- `RadaeDecoder::NB_TOTAL_FEAT` (header line 62). -/
def NB_TOTAL_FEAT : ℕ := 36

/-- The warmup threshold: `warmup_buf_` is sized `5 * 36`, five frames. -/
def WARMUP_FRAMES : ℕ := 5

/-- One vocoder-input feature frame of fixed width `NB_TOTAL_FEAT` = 36. -/
def Frame : Type := Fin NB_TOTAL_FEAT → ℚ

/-- The warmup state declared in the header: readiness flag, accumulated
frame count, and the frame buffer (`warmup_buf_[5 * 36]`, embedded as a
list of at most five 36-wide frames). -/
structure WarmupState where
  fargan_ready_ : Bool
  warmup_count_ : ℕ
  warmup_buf_ : List Frame

/-- Cold start: flag false, count 0, buffer empty (header initialisers). -/
def initWarmup : WarmupState :=
  { fargan_ready_ := false, warmup_count_ := 0, warmup_buf_ := [] }

/-- What the neural receiver hands the warmup gate on one iteration:
either a usable decoded feature frame, or a failure to produce one
(loss of sync). -/
inductive RxEvent where
  | featureFrame (f : Frame)
  | lostSync

/-- Modelled from the spec: the warmup/frame-buffer step of the missing
`processing_loop` (§4.3): frames are accumulated and the vocoder is
withheld "until a minimum of 5 frames … are present"; the
`Accumulating → Ready` transition "fires … when the accumulated frame
count reaches the threshold; this transition also supplies the first batch
of frames to the vocoder"; after `Ready` "the buffer is reused as a
fixed-size sliding feed"; on a failed feature frame "the buffer is reset to
`Empty` and warmup restarts".  The returned Boolean records whether the
vocoder is invoked on this step. -/
def warmup_step (s : WarmupState) (e : RxEvent) : WarmupState × Bool :=
  match e with
  | .lostSync =>
    ({ fargan_ready_ := false, warmup_count_ := 0, warmup_buf_ := [] }, false)
  | .featureFrame f =>
    if s.fargan_ready_ then
      ({ s with warmup_buf_ := s.warmup_buf_.tail ++ [f] }, true)
    else if s.warmup_count_ + 1 = WARMUP_FRAMES then
      ({ fargan_ready_ := true, warmup_count_ := s.warmup_count_ + 1
         warmup_buf_ := s.warmup_buf_ ++ [f] }, true)
    else
      ({ s with warmup_count_ := s.warmup_count_ + 1
                warmup_buf_ := s.warmup_buf_ ++ [f] }, false)

/-- The warmup state after a list of receiver events from a cold start. -/
def warmup_run (evs : List RxEvent) : WarmupState :=
  evs.foldl (fun s e => (warmup_step s e).1) initWarmup

/-- The all-zero feature frame. -/
def zeroFrame : Frame := fun _ => 0

/-- Five consecutive good feature frames. -/
def fiveFrames : List RxEvent :=
  List.replicate 5 (RxEvent.featureFrame zeroFrame)

/-- Four consecutive good feature frames (one short of the threshold). -/
def fourFrames : List RxEvent :=
  List.replicate 4 (RxEvent.featureFrame zeroFrame)

/-- The warmup invariant tying the flag, count and buffer together. -/
def WInv (s : WarmupState) : Prop :=
  (s.fargan_ready_ = true →
    s.warmup_buf_.length = WARMUP_FRAMES ∧ s.warmup_count_ = WARMUP_FRAMES) ∧
  (s.fargan_ready_ = false →
    s.warmup_buf_.length = s.warmup_count_ ∧ s.warmup_count_ < WARMUP_FRAMES)

/-! ### Resamplers (header lines 67-69)

The header declares the capture-direction state `resamp_in_frac_ : double`
and `resamp_in_prev_ : float` ("Resampler state (input)").  The resampling
arithmetic and the codec→playback instance live in the missing
`processing_loop` and are modelled from the spec (§4.1, §3). -/

/-- The two resampling directions of the pipeline (§2: one per
direction). -/
inductive Direction where
  | captureToCodec
  | codecToPlayback
deriving DecidableEq, Repr

/-- One resampler instance's state: the fractional position accumulator
(`resamp_in_frac_`, a `double` in the header — embedded as exact `ℚ`) and
the previously consumed input sample (`resamp_in_prev_`, a `float`). -/
structure ResampState where
  frac : ℚ
  prev : ℚ
deriving DecidableEq, Repr

/-- Modelled from the spec: "**Resampler state** (one instance per
direction)" (§3).  The capture→codec instance is the header's
`resamp_in_frac_`/`resamp_in_prev_` pair; the codec→playback instance is
kept by the missing `processing_loop`. -/
structure DecoderResamplers where
  resamp_in : ResampState
  resamp_out : ResampState
deriving DecidableEq, Repr

/-- The resampler instance a direction owns. -/
def getResamp : Direction → DecoderResamplers → ResampState
  | .captureToCodec, r => r.resamp_in
  | .codecToPlayback, r => r.resamp_out

/-- Writing back one direction's resampler instance. -/
def setResamp : Direction → DecoderResamplers → ResampState → DecoderResamplers
  | .captureToCodec, r, st => { r with resamp_in := st }
  | .codecToPlayback, r, st => { r with resamp_out := st }

/-- Modelled from the spec: the linear-interpolation resampler contract
(§4.1).  Output sample `k` corresponds to read position `k · (R_in/R_out)`
in the input stream; "the integer part of `pos` selects which two buffered
input samples to interpolate between; the fractional part is the
interpolation weight".  (The streaming state — fractional cursor plus
previous sample — is the incremental computation of this same function;
the loop that maintains it is not in the corpus.) -/
def resampleOut (x : ℕ → ℚ) (rin rout : ℚ) (k : ℕ) : ℚ :=
  let pos : ℚ := (k : ℚ) * (rin / rout)
  let i : ℤ := Int.floor pos
  let w : ℚ := pos - (i : ℚ)
  x i.toNat + w * (x (i.toNat + 1) - x i.toNat)

end RadaeDecoder

namespace AudioInput

lemma stop_running (s : State) : (stop s).running_ = false := by
  unfold stop; by_cases h : s.running_ <;> simp [h]

lemma stop_pcm (s : State) : (stop s).pcm_open = s.pcm_open := by
  unfold stop; by_cases h : s.running_ <;> simp [h]

lemma stop_channels (s : State) : (stop s).channels_ = s.channels_ := by
  unfold stop; by_cases h : s.running_ <;> simp [h]

lemma close_pcm (s : State) : (close s).pcm_open = false := by
  unfold close; by_cases h : (stop s).pcm_open <;> simp [h]

lemma close_running (s : State) : (close s).running_ = false := by
  unfold close
  by_cases h : (stop s).pcm_open <;> simp [h, stop_running]

lemma close_levels (s : State) :
    (close s).level_left_ = 0 ∧ (close s).level_right_ = 0 := by
  unfold close; by_cases h : (stop s).pcm_open <;> simp [h]

lemma close_channels (s : State) :
    (close s).channels_ = if s.pcm_open then 0 else s.channels_ := by
  unfold close
  by_cases h : s.pcm_open <;> simp [stop_pcm, h, stop_channels]

lemma stop_of_running {s : State} (hr : s.running_ = true) :
    stop s = { s with running_ := false, level_left_ := 0, level_right_ := 0 } := by
  simp [stop, hr]

lemma stop_of_idle {s : State} (hr : s.running_ = false) : stop s = s := by
  simp [stop, hr]

lemma inv_init : Inv initState :=
  ⟨fun _ => ⟨rfl, rfl, rfl, rfl⟩, fun h => nomatch h⟩

lemma inv_stop {s : State} (h : Inv s) : Inv (stop s) := by
  by_cases hr : s.running_
  · rw [stop_of_running hr]
    exact ⟨fun hp => ⟨(h.1 hp).1, rfl, rfl, rfl⟩, fun hq => nomatch hq⟩
  · rw [stop_of_idle (by simpa using hr)]
    exact h

lemma inv_close {s : State} (h : Inv s) : Inv (close s) := by
  refine ⟨fun _ => ⟨?_, close_running s, (close_levels s).1, (close_levels s).2⟩, ?_⟩
  · rw [close_channels]
    by_cases hp : s.pcm_open
    · simp [hp]
    · simp [hp]
      exact (h.1 (by simpa using hp)).1
  · intro hr
    rw [close_running s] at hr
    cases hr

lemma openFailCleanup_inv {s' : State} (hr : s'.running_ = false)
    (hl : s'.level_left_ = 0) (hl' : s'.level_right_ = 0) :
    Inv (openFailCleanup s') := by
  refine ⟨fun _ => ⟨rfl, hr, hl, hl'⟩, ?_⟩
  intro h
  rw [show (openFailCleanup s').running_ = s'.running_ from rfl, hr] at h
  cases h

lemma inv_open {s : State} (env : AlsaEnv) (h : Inv s) : Inv (open' s env).1 := by
  have hc := inv_close h
  have hrr := close_running s
  have hl := close_levels s
  simp only [open']
  split_ifs
  all_goals
    first
    | exact hc
    | exact openFailCleanup_inv hrr hl.1 hl.2
    | exact ⟨fun hp => (nomatch hp), fun _ => rfl⟩

lemma start_go {s : State} (hp : s.pcm_open = true) (hr : s.running_ = false) :
    start s = ({ s with running_ := true }, true) := by
  simp [start, hp, hr]

lemma start_noop {s : State} (h : s.pcm_open = false ∨ s.running_ = true) :
    start s = (s, false) := by
  rcases h with h | h <;> simp [start, h]

lemma inv_start {s : State} (h : Inv s) : Inv (start s).1 := by
  by_cases hp : s.pcm_open
  · by_cases hrr : s.running_
    · rw [start_noop (Or.inr hrr)]; exact h
    · rw [start_go hp (by simpa using hrr)]
      exact ⟨fun hq => absurd hq (by simp [hp]), fun _ => hp⟩
  · rw [start_noop (Or.inl (by simpa using hp))]; exact h

/-- Reducing one step of the loop when `running_` holds. -/
lemma capture_loop_cons_run {s : State} (hr : s.running_ = true)
    (o : ReadOutcome) (rest : List ReadOutcome) :
    capture_loop s (o :: rest) =
      match o with
      | .eintr => capture_loop s rest
      | .errRecovered => capture_loop s rest
      | .errUnrec => (s, .unrecoverable)
      | .zero => capture_loop s rest
      | .ok l r => capture_loop { s with level_left_ := l, level_right_ := r } rest := by
  simp [capture_loop, hr]

lemma capture_loop_idle {s : State} (hr : s.running_ = false)
    (outs : List ReadOutcome) : capture_loop s outs = (s, .stopped) := by
  cases outs <;> simp [capture_loop, hr]

/-- No branch of the capture loop writes `pcm_` or `running_`. -/
lemma capture_loop_pcm_running (s : State) (outs : List ReadOutcome) :
    (capture_loop s outs).1.pcm_open = s.pcm_open ∧
      (capture_loop s outs).1.running_ = s.running_ := by
  induction outs generalizing s with
  | nil => by_cases hrr : s.running_ <;> simp [capture_loop, hrr]
  | cons o rest ih =>
    by_cases hrr : s.running_
    · rw [capture_loop_cons_run hrr]
      cases o with
      | ok l r => exact ⟨(ih _).1, (ih _).2⟩
      | zero => exact ih s
      | eintr => exact ih s
      | errRecovered => exact ih s
      | errUnrec => exact ⟨rfl, rfl⟩
    · rw [capture_loop_idle (by simpa using hrr)]
      exact ⟨rfl, rfl⟩

lemma inv_loop {s : State} (outs : List ReadOutcome) (h : Inv s) :
    Inv (capture_loop s outs).1 := by
  induction outs generalizing s with
  | nil =>
    by_cases hrr : s.running_ <;> simp [capture_loop, hrr] <;> exact h
  | cons o rest ih =>
    by_cases hrr : s.running_
    · have hp : s.pcm_open = true := h.2 hrr
      rw [capture_loop_cons_run hrr]
      cases o with
      | ok l r => exact ih ⟨fun hq => absurd hq (by simp [hp]), fun _ => hp⟩
      | zero => exact ih h
      | eintr => exact ih h
      | errRecovered => exact ih h
      | errUnrec => exact h
    · rw [capture_loop_idle (by simpa using hrr)]
      exact h

/-- Every reachable `AudioInput` state satisfies the lifecycle invariant. -/
lemma reachable_inv {s : State} (h : Reachable s) : Inv s := by
  induction h with
  | init => exact inv_init
  | opened s env _ ih => exact inv_open env ih
  | closed s _ ih => exact inv_close ih
  | started s _ ih => exact inv_start ih
  | stopped s _ ih => exact inv_stop ih
  | looped s outs _ ih => exact inv_loop outs ih

/-- Under the lifecycle invariant, `close` always leaves `channels_` zero. -/
lemma close_channels_zero {s : State} (h : Inv s) : (close s).channels_ = 0 := by
  rw [close_channels]
  by_cases hp : s.pcm_open
  · simp [hp]
  · simp only [Bool.not_eq_true] at hp
    simp only [hp, Bool.false_eq_true, if_false]
    exact (h.1 hp).1

/-- `close` on a state that is already fully closed (no handle, not running,
levels zero) changes nothing. -/
lemma close_of_closed {s : State} (hp : s.pcm_open = false)
    (hr : s.running_ = false) (hl : s.level_left_ = 0)
    (hl' : s.level_right_ = 0) : close s = s := by
  obtain ⟨p, c, r, ll, lr⟩ := s
  simp only at hp hr hl hl'
  subst hp; subst hr; subst hl; subst hl'
  rfl

end AudioInput

/-! ## Claims C4, C7, C8, C10 (`AudioInput` lifecycle and capture loop) -/

/-- **C4 (counterexample).** The claim says that after an unrecoverable
capture-read failure the worker loop exits *and the running status becomes
false*.  At the concrete reachable state `runningState` (successful open +
start), one unrecoverable read makes `capture_loop` exit via the
`recover`-failed `break`, yet `is_running` still returns `true`: no branch
of the loop body clears `running_`. -/
theorem capture_unrec_running_stays_true_C4 :
    AudioInput.Reachable AudioInput.runningState ∧
    (AudioInput.capture_loop AudioInput.runningState
        [AudioInput.ReadOutcome.errUnrec]).2 =
      AudioInput.LoopOutcome.unrecoverable ∧
    AudioInput.is_running
      (AudioInput.capture_loop AudioInput.runningState
        [AudioInput.ReadOutcome.errUnrec]).1 = true := by
  refine ⟨?_, by decide, by decide⟩
  exact AudioInput.Reachable.started _
    (AudioInput.Reachable.opened _ _ AudioInput.Reachable.init)

/-- **C4 (amended).** When the capture read fails unrecoverably (the
`snd_pcm_recover` call itself fails), the worker loop exits with the
`unrecoverable` outcome and the state otherwise unchanged — but the loop
never writes `running_`, so `is_running()` keeps returning the value it had
(true) until `stop()`/`close()` clears it. -/
theorem capture_loop_unrecoverable_exit_C4 :
    (∀ (s : AudioInput.State) (outs : List AudioInput.ReadOutcome),
      (AudioInput.capture_loop s outs).1.running_ = s.running_) ∧
    (∀ (s : AudioInput.State) (rest : List AudioInput.ReadOutcome),
      s.running_ = true →
      AudioInput.capture_loop s (AudioInput.ReadOutcome.errUnrec :: rest) =
        (s, AudioInput.LoopOutcome.unrecoverable)) := by
  constructor
  · intro s outs
    exact (AudioInput.capture_loop_pcm_running s outs).2
  · intro s rest hr
    rw [AudioInput.capture_loop_cons_run hr]

/-- **C4 (witness).** The amended theorem applied at the concrete running
state with a single unrecoverable read. -/
theorem capture_loop_unrecoverable_exit_C4_witness :
    AudioInput.capture_loop AudioInput.runningState
        [AudioInput.ReadOutcome.errUnrec] =
      (AudioInput.runningState, AudioInput.LoopOutcome.unrecoverable) :=
  capture_loop_unrecoverable_exit_C4.2 AudioInput.runningState [] (by decide)

/-- **C7.** `stop()` on an already-stopped pipeline and `close()` on an
unopened (or already-closed) pipeline are no-ops: no error is produced (the
functions return normally; there is no error channel) and the state is left
unchanged.  Stated both directly (stop with `running_ = false` is the
identity; close on a reachable unopened state is the identity) and as
idempotence (`stop ∘ stop = stop`, `close ∘ close = close`). -/
theorem stop_close_idempotent_C7 :
    (∀ s : AudioInput.State, s.running_ = false → AudioInput.stop s = s) ∧
    (∀ s : AudioInput.State, AudioInput.Reachable s → s.pcm_open = false →
      AudioInput.close s = s) ∧
    (∀ s : AudioInput.State,
      AudioInput.stop (AudioInput.stop s) = AudioInput.stop s) ∧
    (∀ s : AudioInput.State,
      AudioInput.close (AudioInput.close s) = AudioInput.close s) := by
  refine ⟨fun s hr => AudioInput.stop_of_idle hr, ?_, ?_, ?_⟩
  · intro s hR hp
    obtain ⟨_, hrr, hl, hl'⟩ := (AudioInput.reachable_inv hR).1 hp
    exact AudioInput.close_of_closed hp hrr hl hl'
  · intro s
    exact AudioInput.stop_of_idle (AudioInput.stop_running s)
  · intro s
    exact AudioInput.close_of_closed (AudioInput.close_pcm s)
      (AudioInput.close_running s) (AudioInput.close_levels s).1
      (AudioInput.close_levels s).2

/-- **C7 (witness).** The theorem applied at the freshly constructed
(unopened, stopped) state. -/
theorem stop_close_idempotent_C7_witness :
    AudioInput.stop AudioInput.initState = AudioInput.initState ∧
    AudioInput.close AudioInput.initState = AudioInput.initState :=
  ⟨stop_close_idempotent_C7.1 AudioInput.initState rfl,
   stop_close_idempotent_C7.2.1 AudioInput.initState AudioInput.Reachable.init rfl⟩

/-- **C8.** If `open()` fails at any of its ALSA calls it returns `false`
synchronously, the pipeline is left unopened (`pcm_` null, `channels_`
zero), and a subsequent `start()` while unopened spawns no thread and
changes nothing. -/
theorem open_failure_leaves_unopened_C8 :
    ∀ (s : AudioInput.State) (env : AudioInput.AlsaEnv),
      AudioInput.Reachable s →
      (AudioInput.open' s env).2 = false →
      (AudioInput.open' s env).1.pcm_open = false ∧
      (AudioInput.open' s env).1.channels_ = 0 ∧
      AudioInput.start (AudioInput.open' s env).1 =
        ((AudioInput.open' s env).1, false) := by
  intro s env hR
  have hInv := AudioInput.reachable_inv hR
  simp only [AudioInput.open']
  split_ifs
  all_goals
    first
    | (intro _;
       exact ⟨rfl, rfl, AudioInput.start_noop (Or.inl rfl)⟩)
    | (intro _;
       exact ⟨AudioInput.close_pcm s, AudioInput.close_channels_zero hInv,
         AudioInput.start_noop (Or.inl (AudioInput.close_pcm s))⟩)
    | (intro h; exact absurd h (by simp))

/-- **C8 (witness).** The theorem applied at the fresh state with an
environment whose `snd_pcm_open` fails. -/
theorem open_failure_leaves_unopened_C8_witness :
    (AudioInput.open' AudioInput.initState AudioInput.deviceMissingEnv).1.pcm_open
        = false ∧
    (AudioInput.open' AudioInput.initState AudioInput.deviceMissingEnv).1.channels_
        = 0 ∧
    AudioInput.start
        (AudioInput.open' AudioInput.initState AudioInput.deviceMissingEnv).1 =
      ((AudioInput.open' AudioInput.initState AudioInput.deviceMissingEnv).1,
        false) :=
  open_failure_leaves_unopened_C8 AudioInput.initState
    AudioInput.deviceMissingEnv AudioInput.Reachable.init (by decide)

/-- **C10.** `start()` with no device open, or while already running, is a
no-op: it spawns no thread (the Boolean is `false`) and returns the state
unchanged. -/
theorem start_unopened_or_running_noop_C10 :
    ∀ s : AudioInput.State,
      s.pcm_open = false ∨ s.running_ = true →
      AudioInput.start s = (s, false) :=
  fun _ h => AudioInput.start_noop h

/-- **C10 (witness).** The theorem applied at the fresh (unopened) state. -/
theorem start_unopened_or_running_noop_C10_witness :
    AudioInput.start AudioInput.initState = (AudioInput.initState, false) :=
  start_unopened_or_running_noop_C10 AudioInput.initState (Or.inl rfl)

namespace RadaeDecoder

/-! ### Ring-buffer lemmas -/

lemma getD_set_self {l : List ℚ} {i : ℕ} (h : i < l.length) (a : ℚ) :
    (l.set i a).getD i 0 = a := by
  rw [List.getD_eq_getElem _ _ (by simpa using h)]
  simp

lemma getD_set_ne {l : List ℚ} {i j : ℕ} (h : i ≠ j) (a : ℚ) :
    (l.set i a).getD j 0 = l.getD j 0 := by
  by_cases hj : j < l.length
  · rw [List.getD_eq_getElem _ _ (by simpa using hj),
      List.getD_eq_getElem _ _ hj]
    exact List.getElem_set_ne h _
  · have hj' : l.length ≤ j := Nat.le_of_not_lt hj
    rw [List.getD_eq_default _ _ (by simpa using hj'),
      List.getD_eq_default _ _ hj']

lemma ringAfter_length (x : ℕ → ℚ) (n : ℕ) :
    (ringAfter x n).length = HILBERT_NTAPS := by
  induction n with
  | zero => simp [ringAfter]
  | succ n ih => simp [ringAfter, ih]

/-- A sample written fewer than 127 steps ago is still in the ring, at its
write position modulo 127. -/
lemma ringAfter_recent (x : ℕ → ℚ) :
    ∀ {n k : ℕ}, k < n → n ≤ k + HILBERT_NTAPS →
      (ringAfter x n).getD (k % HILBERT_NTAPS) 0 = x k := by
  have h127 : HILBERT_NTAPS = 127 := rfl
  intro n
  induction n with
  | zero => intro k hk _; omega
  | succ n ih =>
    intro k hk hle
    rw [show ringAfter x (n + 1)
        = (ringAfter x n).set (n % HILBERT_NTAPS) (x n) from rfl]
    by_cases hkn : k = n
    · subst hkn
      exact getD_set_self
        (by rw [ringAfter_length]; simp only [h127]; omega) _
    · have hne : n % HILBERT_NTAPS ≠ k % HILBERT_NTAPS := by
        simp only [h127] at hle ⊢
        omega
      rw [getD_set_ne hne]
      exact ih (by omega) (by simp only [h127] at hle ⊢; omega)

/-- A slot whose first write lies in the future still holds its initial
zero. -/
lemma ringAfter_virgin (x : ℕ → ℚ) :
    ∀ {n i : ℕ}, i < HILBERT_NTAPS → n ≤ i →
      (ringAfter x n).getD i 0 = 0 := by
  have h127 : HILBERT_NTAPS = 127 := rfl
  intro n
  induction n with
  | zero =>
    intro i hi _
    rw [show ringAfter x 0 = List.replicate HILBERT_NTAPS 0 from rfl]
    rw [List.getD_eq_getElem _ _ (by simpa using hi)]
    simp
  | succ n ih =>
    intro i hi hn
    rw [show ringAfter x (n + 1)
        = (ringAfter x n).set (n % HILBERT_NTAPS) (x n) from rfl]
    have hne : n % HILBERT_NTAPS ≠ i := by
      simp only [h127] at hi ⊢
      omega
    rw [getD_set_ne hne]
    exact ih hi (by omega)

/-! ### Hilbert-transformer lemmas -/

/-- After `n` steps both rings hold `ringAfter x n` and both cursors sit at
`n mod 127`. -/
lemma hilbertStateAfter_spec (coeffs x : ℕ → ℚ) (n : ℕ) :
    (hilbertStateAfter coeffs x n).hilbert_hist_ = ringAfter x n ∧
    (hilbertStateAfter coeffs x n).hilbert_pos_ = n % HILBERT_NTAPS ∧
    (hilbertStateAfter coeffs x n).delay_buf_ = ringAfter x n ∧
    (hilbertStateAfter coeffs x n).delay_pos_ = n % HILBERT_NTAPS := by
  have h127 : HILBERT_NTAPS = 127 := rfl
  induction n with
  | zero => exact ⟨rfl, rfl, rfl, rfl⟩
  | succ n ih =>
    obtain ⟨ih1, ih2, ih3, ih4⟩ := ih
    refine ⟨?_, ?_, ?_, ?_⟩
    · show (hilbertStateAfter coeffs x n).hilbert_hist_.set
        (hilbertStateAfter coeffs x n).hilbert_pos_ (x n) = ringAfter x (n + 1)
      rw [ih1, ih2]
      rfl
    · show ((hilbertStateAfter coeffs x n).hilbert_pos_ + 1) % HILBERT_NTAPS
        = (n + 1) % HILBERT_NTAPS
      rw [ih2]
      simp only [h127]
      omega
    · show (hilbertStateAfter coeffs x n).delay_buf_.set
        (hilbertStateAfter coeffs x n).delay_pos_ (x n) = ringAfter x (n + 1)
      rw [ih3, ih4]
      rfl
    · show ((hilbertStateAfter coeffs x n).delay_pos_ + 1) % HILBERT_NTAPS
        = (n + 1) % HILBERT_NTAPS
      rw [ih4]
      simp only [h127]
      omega

/-- The delayed-real output: zero during the 63-sample startup transient,
then exactly the input from 63 steps earlier. -/
lemma hilbertRealOut_eq (coeffs x : ℕ → ℚ) (n : ℕ) :
    hilbertRealOut coeffs x n =
      if n < HILBERT_DELAY then 0 else x (n - HILBERT_DELAY) := by
  have h127 : HILBERT_NTAPS = 127 := rfl
  have h63 : HILBERT_DELAY = 63 := rfl
  obtain ⟨-, -, h3, h4⟩ := hilbertStateAfter_spec coeffs x n
  have hrfl : hilbertRealOut coeffs x n =
      ((hilbertStateAfter coeffs x n).delay_buf_.set
        (hilbertStateAfter coeffs x n).delay_pos_ (x n)).getD
        (((hilbertStateAfter coeffs x n).delay_pos_
          + HILBERT_NTAPS - HILBERT_DELAY) % HILBERT_NTAPS) 0 := rfl
  rw [hrfl, h3, h4,
    show (ringAfter x n).set (n % HILBERT_NTAPS) (x n) = ringAfter x (n + 1)
      from rfl]
  by_cases hn : n < HILBERT_DELAY
  · have hidx : (n % HILBERT_NTAPS + HILBERT_NTAPS - HILBERT_DELAY)
        % HILBERT_NTAPS = n + 64 := by
      simp only [h127, h63] at hn ⊢
      omega
    rw [hidx, if_pos hn]
    exact ringAfter_virgin x (by simp only [h127, h63] at hn ⊢; omega)
      (by omega)
  · have hidx : (n % HILBERT_NTAPS + HILBERT_NTAPS - HILBERT_DELAY)
        % HILBERT_NTAPS = (n - HILBERT_DELAY) % HILBERT_NTAPS := by
      simp only [h127, h63] at hn ⊢
      omega
    rw [hidx, if_neg hn]
    exact ringAfter_recent x (by simp only [h63] at hn ⊢; omega)
      (by simp only [h127, h63] at hn ⊢; omega)

/-- The FIR output is the causal convolution of the coefficient table with
the input (startup transient included: missing history reads as zero). -/
lemma hilbertImagOut_eq (coeffs x : ℕ → ℚ) (n : ℕ) :
    hilbertImagOut coeffs x n =
      ((List.range HILBERT_NTAPS).map
        (fun k => coeffs k * (if k ≤ n then x (n - k) else 0))).sum := by
  have h127 : HILBERT_NTAPS = 127 := rfl
  obtain ⟨h1, h2, -, -⟩ := hilbertStateAfter_spec coeffs x n
  have hrfl : hilbertImagOut coeffs x n =
      ((List.range HILBERT_NTAPS).map
        (fun k => coeffs k *
          ((hilbertStateAfter coeffs x n).hilbert_hist_.set
            (hilbertStateAfter coeffs x n).hilbert_pos_ (x n)).getD
            (((hilbertStateAfter coeffs x n).hilbert_pos_
              + HILBERT_NTAPS - k) % HILBERT_NTAPS) 0)).sum := rfl
  rw [hrfl, h1, h2,
    show (ringAfter x n).set (n % HILBERT_NTAPS) (x n) = ringAfter x (n + 1)
      from rfl]
  congr 1
  apply List.map_congr_left
  intro k hk
  rw [List.mem_range] at hk
  congr 1
  by_cases hkn : k ≤ n
  · have hidx : (n % HILBERT_NTAPS + HILBERT_NTAPS - k) % HILBERT_NTAPS
        = (n - k) % HILBERT_NTAPS := by
      simp only [h127] at hk ⊢
      omega
    rw [hidx, if_pos hkn]
    exact ringAfter_recent x (by omega)
      (by simp only [h127] at hk ⊢; omega)
  · have hidx : (n % HILBERT_NTAPS + HILBERT_NTAPS - k) % HILBERT_NTAPS
        = n + HILBERT_NTAPS - k := by
      simp only [h127] at hk hkn ⊢
      omega
    rw [hidx, if_neg hkn]
    exact ringAfter_virgin x (by simp only [h127] at hk hkn ⊢; omega)
      (by simp only [h127] at hk hkn ⊢; omega)

/-- A list-range sum whose terms vanish except possibly at one index. -/
lemma sum_single_term (f : ℕ → ℚ) (m : ℕ) :
    ∀ N : ℕ, (∀ k, k < N → k ≠ m → f k = 0) →
      ((List.range N).map f).sum = if m < N then f m else 0 := by
  intro N
  induction N with
  | zero => intro _; simp
  | succ N ih =>
    intro h
    rw [List.range_succ, List.map_append, List.sum_append,
      ih (fun k hk hkm => h k (by omega) hkm)]
    simp only [List.map_cons, List.map_nil, List.sum_cons, List.sum_nil,
      add_zero]
    by_cases hm : m = N
    · subst hm
      rw [if_neg (by omega), if_pos (by omega), zero_add]
    · have hfN : f N = 0 := h N (by omega) (fun hc => hm hc.symm)
      rw [hfN, add_zero]
      by_cases hmN : m < N
      · rw [if_pos hmN, if_pos (by omega)]
      · rw [if_neg hmN, if_neg (by omega)]

/-- Feeding a unit impulse, the FIR output reproduces the coefficient
table itself: the imaginary impulse response occupies sample indices
0‥126, centred on index 63. -/
lemma hilbertImagOut_impulse (coeffs : ℕ → ℚ) (n : ℕ) :
    hilbertImagOut coeffs impulse n =
      if n < HILBERT_NTAPS then coeffs n else 0 := by
  have hz : ∀ k, k < HILBERT_NTAPS → k ≠ n →
      (fun k => coeffs k * (if k ≤ n then impulse (n - k) else 0)) k = 0 := by
    intro k hk hkn
    by_cases hkle : k ≤ n
    · have hnk : n - k ≠ 0 := by omega
      simp [impulse, if_pos hkle, hnk]
    · simp only [if_neg hkle, mul_zero]
  rw [hilbertImagOut_eq, sum_single_term _ n HILBERT_NTAPS hz]
  by_cases hn : n < HILBERT_NTAPS
  · rw [if_pos hn, if_pos hn]
    simp [impulse]
  · rw [if_neg hn, if_neg hn]

end RadaeDecoder

namespace RadaeDecoder

/-! ### Warmup-gate lemmas -/

lemma warmup_step_lost (s : WarmupState) :
    warmup_step s RxEvent.lostSync =
      ({ fargan_ready_ := false, warmup_count_ := 0, warmup_buf_ := [] },
        false) := rfl

lemma warmup_step_ready {s : WarmupState} (hr : s.fargan_ready_ = true)
    (f : Frame) :
    warmup_step s (RxEvent.featureFrame f) =
      ({ s with warmup_buf_ := s.warmup_buf_.tail ++ [f] }, true) := by
  simp [warmup_step, hr]

lemma warmup_step_fire {s : WarmupState} (hr : s.fargan_ready_ = false)
    (hc : s.warmup_count_ + 1 = WARMUP_FRAMES) (f : Frame) :
    warmup_step s (RxEvent.featureFrame f) =
      ({ fargan_ready_ := true, warmup_count_ := s.warmup_count_ + 1
         warmup_buf_ := s.warmup_buf_ ++ [f] }, true) := by
  simp [warmup_step, hr, hc]

lemma warmup_step_accum {s : WarmupState} (hr : s.fargan_ready_ = false)
    (hc : s.warmup_count_ + 1 ≠ WARMUP_FRAMES) (f : Frame) :
    warmup_step s (RxEvent.featureFrame f) =
      ({ s with warmup_count_ := s.warmup_count_ + 1
                warmup_buf_ := s.warmup_buf_ ++ [f] }, false) := by
  simp [warmup_step, hr, hc]

lemma winv_init : WInv initWarmup :=
  ⟨fun h => (nomatch h), fun _ => ⟨rfl, by decide⟩⟩

lemma winv_step {s : WarmupState} (h : WInv s) (e : RxEvent) :
    WInv (warmup_step s e).1 := by
  have h5 : WARMUP_FRAMES = 5 := rfl
  cases e with
  | lostSync =>
    rw [warmup_step_lost]
    exact ⟨fun hq => (nomatch hq), fun _ => ⟨rfl, by decide⟩⟩
  | featureFrame f =>
    by_cases hr : s.fargan_ready_
    · obtain ⟨hb, hc⟩ := h.1 hr
      rw [warmup_step_ready hr]
      refine ⟨fun _ => ⟨?_, hc⟩, fun hq => absurd hq (by simp [hr])⟩
      show (s.warmup_buf_.tail ++ [f]).length = WARMUP_FRAMES
      rw [List.length_append, List.length_tail, hb]
      simp only [h5, List.length_singleton]
    · have hr' : s.fargan_ready_ = false := by simpa using hr
      obtain ⟨hb, hc⟩ := h.2 hr'
      by_cases hfire : s.warmup_count_ + 1 = WARMUP_FRAMES
      · rw [warmup_step_fire hr' hfire f]
        refine ⟨fun _ => ⟨?_, hfire⟩, fun hq => nomatch hq⟩
        show (s.warmup_buf_ ++ [f]).length = WARMUP_FRAMES
        rw [List.length_append, hb]
        simpa using hfire
      · rw [warmup_step_accum hr' hfire f]
        refine ⟨fun hq => absurd hq (by simp [hr']), fun _ => ⟨?_, ?_⟩⟩
        · show (s.warmup_buf_ ++ [f]).length = s.warmup_count_ + 1
          rw [List.length_append, hb, List.length_singleton]
        · simp only [h5] at hc hfire ⊢
          omega

lemma winv_foldl :
    ∀ (l : List RxEvent) (s : WarmupState), WInv s →
      WInv (l.foldl (fun s e => (warmup_step s e).1) s) := by
  intro l
  induction l with
  | nil => intro s hs; exact hs
  | cons e rest ih =>
    intro s hs
    exact ih _ (winv_step hs e)

lemma winv_run (evs : List RxEvent) : WInv (warmup_run evs) :=
  winv_foldl evs initWarmup winv_init

lemma ready_step_mono {s : WarmupState} (e : RxEvent)
    (he : e ≠ RxEvent.lostSync) (hr : s.fargan_ready_ = true) :
    (warmup_step s e).1.fargan_ready_ = true := by
  cases e with
  | lostSync => exact absurd rfl he
  | featureFrame f =>
    rw [warmup_step_ready hr]
    exact hr

end RadaeDecoder

/-! ## Claims C1, C2, C3, C5, C6, C9 (`RadaeDecoder`) -/

/-- **C1.** For every input stream `x`, the Hilbert transformer's real
output at step `n` is the input sample from exactly `HILBERT_DELAY` = 63
steps earlier (zero during the 63-sample startup transient of the
pre-zeroed ring), drawn from the matched 127-long delay ring; feeding a
unit impulse, the real output reproduces the impulse at sample index 63
and the imaginary (FIR) output reproduces the coefficient table, whose
127 taps are centred on index 63 — so the real and imaginary impulse
responses align at sample index 63. -/
theorem hilbert_group_delay_C1 :
    ∀ (coeffs x : ℕ → ℚ) (n : ℕ),
      (RadaeDecoder.hilbertRealOut coeffs x n =
        if n < RadaeDecoder.HILBERT_DELAY then 0
        else x (n - RadaeDecoder.HILBERT_DELAY)) ∧
      RadaeDecoder.hilbertRealOut coeffs RadaeDecoder.impulse
        RadaeDecoder.HILBERT_DELAY = 1 ∧
      (RadaeDecoder.hilbertImagOut coeffs RadaeDecoder.impulse n =
        if n < RadaeDecoder.HILBERT_NTAPS then coeffs n else 0) := by
  intro coeffs x n
  refine ⟨RadaeDecoder.hilbertRealOut_eq coeffs x n, ?_,
    RadaeDecoder.hilbertImagOut_impulse coeffs n⟩
  rw [RadaeDecoder.hilbertRealOut_eq]
  simp [RadaeDecoder.impulse]

/-- **C2.** From a cold start, whenever the warmup gate invokes the
vocoder, the buffer holds exactly `WARMUP_FRAMES` = 5 full feature frames
(each of fixed width `NB_TOTAL_FEAT` = 36, by the type of `Frame`) and the
accumulated frame count is 5: no vocoder call ever occurs with fewer than
5 accumulated frames. -/
theorem warmup_gating_C2 :
    ∀ (evs : List RadaeDecoder.RxEvent) (e : RadaeDecoder.RxEvent),
      (RadaeDecoder.warmup_step (RadaeDecoder.warmup_run evs) e).2 = true →
      (RadaeDecoder.warmup_step
          (RadaeDecoder.warmup_run evs) e).1.warmup_buf_.length =
        RadaeDecoder.WARMUP_FRAMES ∧
      (RadaeDecoder.warmup_step
          (RadaeDecoder.warmup_run evs) e).1.warmup_count_ =
        RadaeDecoder.WARMUP_FRAMES := by
  intro evs e hcall
  have hw := RadaeDecoder.winv_run evs
  cases e with
  | lostSync =>
    rw [RadaeDecoder.warmup_step_lost] at hcall
    cases hcall
  | featureFrame f =>
    by_cases hr : (RadaeDecoder.warmup_run evs).fargan_ready_
    · have hstep := RadaeDecoder.warmup_step_ready hr f
      rw [hstep]
      obtain ⟨hb, hc⟩ := hw.1 hr
      have h5 : RadaeDecoder.WARMUP_FRAMES = 5 := rfl
      refine ⟨?_, hc⟩
      show ((RadaeDecoder.warmup_run evs).warmup_buf_.tail ++ [f]).length =
        RadaeDecoder.WARMUP_FRAMES
      rw [List.length_append, List.length_tail, hb]
      simp only [h5, List.length_singleton]
    · have hr' : (RadaeDecoder.warmup_run evs).fargan_ready_ = false := by
        simpa using hr
      obtain ⟨hb, hc⟩ := hw.2 hr'
      by_cases hfire :
          (RadaeDecoder.warmup_run evs).warmup_count_ + 1 =
            RadaeDecoder.WARMUP_FRAMES
      · rw [RadaeDecoder.warmup_step_fire hr' hfire f]
        refine ⟨?_, hfire⟩
        show ((RadaeDecoder.warmup_run evs).warmup_buf_ ++ [f]).length =
          RadaeDecoder.WARMUP_FRAMES
        rw [List.length_append, hb]
        simpa using hfire
      · rw [RadaeDecoder.warmup_step_accum hr' hfire f] at hcall
        cases hcall

/-- **C2 (witness).** After four frames the next frame is the fifth: the
vocoder is invoked on it, with exactly five accumulated frames. -/
theorem warmup_gating_C2_witness :
    (RadaeDecoder.warmup_step (RadaeDecoder.warmup_run RadaeDecoder.fourFrames)
        (RadaeDecoder.RxEvent.featureFrame RadaeDecoder.zeroFrame)).1.warmup_buf_.length =
      RadaeDecoder.WARMUP_FRAMES ∧
    (RadaeDecoder.warmup_step (RadaeDecoder.warmup_run RadaeDecoder.fourFrames)
        (RadaeDecoder.RxEvent.featureFrame RadaeDecoder.zeroFrame)).1.warmup_count_ =
      RadaeDecoder.WARMUP_FRAMES :=
  warmup_gating_C2 RadaeDecoder.fourFrames
    (RadaeDecoder.RxEvent.featureFrame RadaeDecoder.zeroFrame) (by decide)

/-- **C3 (counterexample).** The claim says the readiness flag never
reverts while the pipeline is running.  But after five good frames
(`fargan_ready_ = true`), a single loss-of-sync event — the spec's own
recoverable failure policy, which resets the buffer to `Empty` while the
pipeline keeps running — makes the flag false again. -/
theorem ready_reverts_on_lost_sync_C3_cx :
    (RadaeDecoder.warmup_run RadaeDecoder.fiveFrames).fargan_ready_ = true ∧
    (RadaeDecoder.warmup_step (RadaeDecoder.warmup_run RadaeDecoder.fiveFrames)
        RadaeDecoder.RxEvent.lostSync).1.fargan_ready_ = false :=
  ⟨by decide, by decide⟩

/-- **C3 (amended).** Once the warmup readiness flag becomes true, it
stays true for as long as the receiver keeps producing usable feature
frames: it reverts only through the loss-of-sync reset (which returns the
buffer to `Empty` and restarts warmup). -/
theorem ready_monotonic_no_reset_C3 :
    ∀ (evs more : List RadaeDecoder.RxEvent),
      (∀ e ∈ more, e ≠ RadaeDecoder.RxEvent.lostSync) →
      (RadaeDecoder.warmup_run evs).fargan_ready_ = true →
      (RadaeDecoder.warmup_run (evs ++ more)).fargan_ready_ = true := by
  intro evs more hmore hready
  have hgen : ∀ (l : List RadaeDecoder.RxEvent) (s : RadaeDecoder.WarmupState),
      (∀ e ∈ l, e ≠ RadaeDecoder.RxEvent.lostSync) → s.fargan_ready_ = true →
      (l.foldl (fun s e => (RadaeDecoder.warmup_step s e).1) s).fargan_ready_
        = true := by
    intro l
    induction l with
    | nil => intro s _ hs; exact hs
    | cons e rest ih =>
      intro s hl hs
      exact ih _ (fun e' he' => hl e' (List.mem_cons_of_mem _ he'))
        (RadaeDecoder.ready_step_mono e (hl e (List.mem_cons_self _ _)) hs)
  rw [RadaeDecoder.warmup_run, List.foldl_append]
  exact hgen more _ hmore hready

/-- **C3 (witness).** The amended theorem applied after five good frames
followed by one more good frame. -/
theorem ready_monotonic_no_reset_C3_witness :
    (RadaeDecoder.warmup_run (RadaeDecoder.fiveFrames ++
        [RadaeDecoder.RxEvent.featureFrame RadaeDecoder.zeroFrame])).fargan_ready_
      = true :=
  ready_monotonic_no_reset_C3 RadaeDecoder.fiveFrames
    [RadaeDecoder.RxEvent.featureFrame RadaeDecoder.zeroFrame]
    (by
      intro e he
      rw [List.mem_singleton] at he
      subst he
      intro hc
      exact RadaeDecoder.RxEvent.noConfusion hc)
    (by decide)

/-- **C5.** The decoder keeps one independent resampler state instance per
direction — capture→codec and codec→playback — each a `ResampState`
(fractional position accumulator plus previously consumed input sample):
reading a direction back gives exactly what was written, and writing one
direction leaves the other direction's instance untouched. -/
theorem resampler_per_direction_C5 :
    ∀ (d d' : RadaeDecoder.Direction) (r : RadaeDecoder.DecoderResamplers)
      (st : RadaeDecoder.ResampState),
      RadaeDecoder.getResamp d (RadaeDecoder.setResamp d r st) = st ∧
      (d' ≠ d →
        RadaeDecoder.getResamp d' (RadaeDecoder.setResamp d r st) =
          RadaeDecoder.getResamp d' r) := by
  intro d d' r st
  constructor
  · cases d <;> rfl
  · intro hne
    cases d <;> cases d' <;> first | rfl | exact absurd rfl hne

/-- **C5 (witness).** The theorem applied to concrete states: writing the
capture-direction instance is read back exactly and leaves the playback
instance unchanged. -/
theorem resampler_per_direction_C5_witness :
    RadaeDecoder.getResamp RadaeDecoder.Direction.captureToCodec
        (RadaeDecoder.setResamp RadaeDecoder.Direction.captureToCodec
          ⟨⟨0, 0⟩, ⟨0, 0⟩⟩ ⟨1, 2⟩) = ⟨1, 2⟩ ∧
    RadaeDecoder.getResamp RadaeDecoder.Direction.codecToPlayback
        (RadaeDecoder.setResamp RadaeDecoder.Direction.captureToCodec
          ⟨⟨0, 0⟩, ⟨0, 0⟩⟩ ⟨1, 2⟩) = ⟨0, 0⟩ :=
  ⟨(resampler_per_direction_C5 RadaeDecoder.Direction.captureToCodec
      RadaeDecoder.Direction.codecToPlayback ⟨⟨0, 0⟩, ⟨0, 0⟩⟩ ⟨1, 2⟩).1,
   (resampler_per_direction_C5 RadaeDecoder.Direction.captureToCodec
      RadaeDecoder.Direction.codecToPlayback ⟨⟨0, 0⟩, ⟨0, 0⟩⟩ ⟨1, 2⟩).2
      (by decide)⟩

/-- **C6.** When the resampler's input rate equals its output rate, every
output sample equals the corresponding input sample exactly, for every
input sequence: the read position is the integer `k`, so the interpolation
weight is zero and the pass-through is exact. -/
theorem resample_identity_C6 :
    ∀ (x : ℕ → ℚ) (rin rout : ℚ) (k : ℕ),
      rout ≠ 0 → rin = rout → RadaeDecoder.resampleOut x rin rout k = x k := by
  intro x rin rout k h0 heq
  subst heq
  simp only [RadaeDecoder.resampleOut]
  rw [div_self h0, mul_one, Int.floor_natCast]
  simp

/-- **C6 (witness).** The theorem applied at equal 48 kHz rates on a
concrete stream. -/
theorem resample_identity_C6_witness :
    RadaeDecoder.resampleOut (fun _ => (5 : ℚ)) 48000 48000 7 = 5 :=
  resample_identity_C6 (fun _ => (5 : ℚ)) 48000 48000 7 (by norm_num) rfl

/-- **C9.** For every decoder status state, `get_output_level_left()` and
`get_output_level_right()` return the same value: both read the single
`output_level_` atomic (the decoded output is mono, duplicated to both
channels). -/
theorem output_level_mono_C9 :
    ∀ s : RadaeDecoder.Status,
      RadaeDecoder.get_output_level_left s =
        RadaeDecoder.get_output_level_right s :=
  fun _ => rfl
